import Mathlib

/-!
A shallow embedding of `miniProject/app_region_stats.py` (Olist regional
delivery-delay dashboard) and proofs about its data-transformation pipeline.

Modelling conventions:
* Timestamps are integers counting seconds; `pd.Timedelta(days=1)` is `86400`.
* A possibly-missing timestamp (pandas `NaT`) is `Option Int`; as in pandas,
  any order comparison against a missing timestamp is `false`.
* Item prices and the derived monetary/ratio columns are rationals; the
  `.round(2)` of the script is modelled by `round2` (round to an integer
  number of hundredths).
* Exceptions are modelled with `Except String`; `try/except` becomes a match
  on the `Except` value.
* The dashboard-only columns (`avg_time_*`, the two `qcut` segment columns)
  and the chart-rendering code are not modelled: no claim mentions them.
-/

/-- One day, in seconds: the model of `pd.Timedelta(days=1)`. -/
def oneDay : Int := 86400

/-- `a < b` on possibly-missing timestamps; false when either side is `NaT`,
as in pandas. -/
def tLt : Option Int → Option Int → Bool
  | some a, some b => a < b
  | _, _ => false

/-- `a > b` on possibly-missing timestamps. -/
def tGt (a b : Option Int) : Bool := tLt b a

/-- `a - b` on possibly-missing timestamps; missing when either side is. -/
def tSub : Option Int → Option Int → Option Int
  | some a, some b => some (a - b)
  | _, _ => none

/-- Maximum of a list of timestamps (pandas `Series.max`, which skips `NaT`
and returns `NaT` for an all-missing column); the caller already removed the
missing entries. -/
def tsMax : List Int → Option Int
  | [] => none
  | a :: l =>
    match tsMax l with
    | none => some a
    | some b => some (max a b)

/-- `.dt.days` of a timedelta column: whole days, floor division as in
pandas `Timedelta.days`. -/
def dtDays : Option Int → Option Int
  | some d => some (Int.fdiv d oneDay)
  | none => none

/-- A row of `olist_orders_dataset` after the `pd.to_datetime` conversion of
the three date columns (lines 36-38 of the script). -/
structure OrderRec where
  order_id : String
  customer_id : String
  order_status : String
  order_purchase_timestamp : Option Int
  order_delivered_customer_date : Option Int
  order_estimated_delivery_date : Option Int
deriving DecidableEq, Repr

/-- The two columns of `olist_customers_dataset` that the script selects. -/
structure CustomerRec where
  customer_id : String
  customer_state : String
deriving DecidableEq, Repr

/-- The columns of `olist_order_items_dataset` that the script uses. -/
structure ItemRec where
  order_id : String
  price : ℚ
deriving DecidableEq, Repr

/-- The three loaded datasets: the input of the processing pipeline. -/
structure DataInput where
  orders : List OrderRec
  customers : List CustomerRec
  order_items : List ItemRec
deriving DecidableEq, Repr

/-- A row of the merged frame `df` (orders left-joined with the customer
state and the per-order price total, lines 41-45). `customer_state` is
`none` when the order's customer is absent from the customer table. -/
structure Row where
  order_id : String
  order_status : String
  order_purchase_timestamp : Option Int
  order_delivered_customer_date : Option Int
  order_estimated_delivery_date : Option Int
  customer_state : Option String
  price : ℚ
deriving DecidableEq, Repr

/-- Line 44: `order_items.groupby('order_id')['price'].sum()`, read back for
one `order_id` after the left merge with `fillna({'price': 0})` on line 45:
the sum of the prices of the order's items, `0` when it has none. -/
def order_value (items : List ItemRec) (oid : String) : ℚ :=
  ((items.filter fun it => it.order_id == oid).map fun it => it.price).sum

/-- Line 41: `pd.merge(orders, customers[...], on='customer_id',
how='left')` — each order row is paired with every matching customer row,
or kept once with a missing state when no customer matches. -/
def leftMergeState (orders : List OrderRec) (customers : List CustomerRec) :
    List (OrderRec × Option String) :=
  orders.flatMap fun o =>
    let ms := customers.filter fun c => c.customer_id == o.customer_id
    if ms.isEmpty then [(o, none)]
    else ms.map fun c => (o, some c.customer_state)

/-- Lines 41-45: the merged frame `df` with the state and per-order price
total attached to every order row. -/
def buildDF (input : DataInput) : List Row :=
  (leftMergeState input.orders input.customers).map fun oc =>
    { order_id := oc.1.order_id
      order_status := oc.1.order_status
      order_purchase_timestamp := oc.1.order_purchase_timestamp
      order_delivered_customer_date := oc.1.order_delivered_customer_date
      order_estimated_delivery_date := oc.1.order_estimated_delivery_date
      customer_state := oc.2
      price := order_value input.order_items oc.1.order_id }

/-- The non-missing purchase timestamps of the merged frame. -/
def purchaseTimes (df : List Row) : List Int :=
  df.filterMap fun r => r.order_purchase_timestamp

/-- Line 48: `snapshot_date = df['order_purchase_timestamp'].max() +
pd.Timedelta(days=1)`. -/
def snapshot_date (df : List Row) : Option Int :=
  (tsMax (purchaseTimes df)).map fun m => m + oneDay

/-- Line 51: `df['is_success'] = df['order_status'] == 'delivered'`. -/
def is_success (r : Row) : Bool := r.order_status == "delivered"

/-- Line 52: `df['is_canceled'] = df['order_status'] == 'canceled'`. -/
def is_canceled (r : Row) : Bool := r.order_status == "canceled"

/-- Line 56: delivered order whose actual arrival is after the estimate. -/
def is_success_delay (r : Row) : Bool :=
  is_success r && tGt r.order_delivered_customer_date r.order_estimated_delivery_date

/-- Line 58: order neither delivered nor canceled whose estimated delivery
date is before the snapshot date. -/
def is_failure_delay (snap : Option Int) (r : Row) : Bool :=
  (!is_success r && !is_canceled r) && tLt r.order_estimated_delivery_date snap

/-- Line 60: canceled order whose estimated delivery date is before the
snapshot date. -/
def is_canceled_delay (snap : Option Int) (r : Row) : Bool :=
  is_canceled r && tLt r.order_estimated_delivery_date snap

/-- Line 67: `df['delay_duration'] = (snapshot_date -
df['order_estimated_delivery_date']).dt.days`. -/
def delay_duration (snap : Option Int) (r : Row) : Option Int :=
  dtDays (tSub snap r.order_estimated_delivery_date)

/-- The three delay-intensity buckets of `categorize_delay`. -/
inductive DelayCat
  | d1_3
  | d4_7
  | d7_plus
deriving DecidableEq, Repr

/-- Lines 70-74: `categorize_delay` on a non-missing whole-day duration. -/
def categorize_delay (days : Int) : Option DelayCat :=
  if days ≤ 0 then none
  else if days ≤ 3 then some DelayCat.d1_3
  else if days ≤ 7 then some DelayCat.d4_7
  else some DelayCat.d7_plus

/-- Line 76: the delay-intensity category of a row. A missing duration (a
float `NaN` in the script) fails every `<=` test of `categorize_delay` and
so falls through to the last bucket. -/
def delay_intensity (snap : Option Int) (r : Row) : Option DelayCat :=
  if is_canceled_delay snap r || is_failure_delay snap r then
    match delay_duration snap r with
    | some d => categorize_delay d
    | none => some DelayCat.d7_plus
  else none

/- ## Specification-side definitions for claim C1

These follow the words of the claim, to be compared with the flag
definitions taken from the source. -/

/-- Spec wording: the snapshot date is the maximum `order_purchase_timestamp`
in the dataset plus one day. -/
def spec_snapshot_date (df : List Row) (sd : Int) : Prop :=
  ∃ m ∈ purchaseTimes df, (∀ p ∈ purchaseTimes df, p ≤ m) ∧ sd = m + oneDay

/-- Spec wording: `order_status` equals `'delivered'` and the delivered date
is strictly later than the estimated delivery date. -/
def spec_is_success_delay (r : Row) : Prop :=
  r.order_status = "delivered" ∧
    ∃ d e, r.order_delivered_customer_date = some d ∧
      r.order_estimated_delivery_date = some e ∧ e < d

/-- Spec wording: `order_status` is neither `'delivered'` nor `'canceled'`
and the estimated delivery date is strictly before the snapshot date. -/
def spec_is_failure_delay (df : List Row) (r : Row) : Prop :=
  r.order_status ≠ "delivered" ∧ r.order_status ≠ "canceled" ∧
    ∃ e sd, r.order_estimated_delivery_date = some e ∧
      spec_snapshot_date df sd ∧ e < sd

/-- Spec wording: `order_status` equals `'canceled'` and the estimated
delivery date is strictly before the snapshot date. -/
def spec_is_canceled_delay (df : List Row) (r : Row) : Prop :=
  r.order_status = "canceled" ∧
    ∃ e sd, r.order_estimated_delivery_date = some e ∧
      spec_snapshot_date df sd ∧ e < sd

/- ## Helper lemmas -/

lemma tsMax_eq_some_iff (l : List Int) (m : Int) :
    tsMax l = some m ↔ m ∈ l ∧ ∀ x ∈ l, x ≤ m := by
  induction l generalizing m with
  | nil => simp [tsMax]
  | cons a l ih =>
    cases hl : tsMax l with
    | none =>
      have hnil : l = [] := by
        cases l with
        | nil => rfl
        | cons b l' => simp only [tsMax] at hl; cases h' : tsMax l' <;> simp [h'] at hl
      subst hnil
      constructor
      · intro hm
        have ham : a = m := by simpa [tsMax] using hm
        subst ham
        refine ⟨List.mem_singleton_self _, ?_⟩
        intro x hx
        have : x = a := by simpa using hx
        simp [this]
      · rintro ⟨hmem, -⟩
        have : m = a := by simpa using hmem
        subst this
        rfl
    | some b =>
      simp only [tsMax, hl]
      constructor
      · rintro hm
        have hm' : max a b = m := by simpa using hm
        obtain ⟨hbmem, hble⟩ := (ih b).mp hl
        subst hm'
        constructor
        · rcases max_cases a b with ⟨he, _⟩ | ⟨he, _⟩
          · rw [he]; exact List.mem_cons_self _ _
          · rw [he]; exact List.mem_cons_of_mem _ hbmem
        · intro x hx
          rcases List.mem_cons.mp hx with rfl | hx
          · exact le_max_left _ _
          · exact le_trans (hble x hx) (le_max_right _ _)
      · rintro ⟨hmem, hle⟩
        obtain ⟨hbmem, hble⟩ := (ih b).mp hl
        have hmb : b ≤ m := hle b (List.mem_cons_of_mem _ hbmem)
        have ham : a ≤ m := hle a (List.mem_cons_self _ _)
        rcases List.mem_cons.mp hmem with rfl | hmem
        · simp [max_eq_left (hmb)]
        · have : m ≤ b := hble m hmem
          have hbm : b = m := le_antisymm hmb this
          subst hbm
          simp [max_eq_right ham]

lemma tsMax_eq_none_iff (l : List Int) : tsMax l = none ↔ l = [] := by
  cases l with
  | nil => simp [tsMax]
  | cons a l => simp only [tsMax]; cases tsMax l <;> simp

lemma snapshot_date_eq_some_iff (df : List Row) (sd : Int) :
    snapshot_date df = some sd ↔ spec_snapshot_date df sd := by
  unfold snapshot_date spec_snapshot_date
  cases h : tsMax (purchaseTimes df) with
  | none =>
    have hnil : purchaseTimes df = [] := (tsMax_eq_none_iff _).mp h
    simp [hnil]
  | some m =>
    obtain ⟨hmem, hle⟩ := (tsMax_eq_some_iff _ _).mp h
    simp only [Option.map_some']
    constructor
    · rintro h'
      have : m + oneDay = sd := by simpa using h'
      exact ⟨m, hmem, hle, this.symm⟩
    · rintro ⟨m', hm', hle', rfl⟩
      have h1 : m' ≤ m := hle m' hm'
      have h2 : m ≤ m' := hle' m hmem
      have : m' = m := le_antisymm h1 h2
      subst this
      rfl

lemma tLt_eq_true_iff (a b : Option Int) :
    tLt a b = true ↔ ∃ x y, a = some x ∧ b = some y ∧ x < y := by
  cases a <;> cases b <;> simp [tLt]

/-- Claim C1: for every order record, `is_success_delay` holds iff the order
is delivered and arrived strictly after the estimate; `is_failure_delay`
holds iff the order is neither delivered nor canceled and its estimate is
strictly before the snapshot date (the maximum purchase timestamp plus one
day); `is_canceled_delay` holds iff the order is canceled and its estimate
is strictly before that snapshot date. -/
theorem delay_flags_match_spec (df : List Row) (r : Row) :
    (is_success_delay r = true ↔ spec_is_success_delay r) ∧
    (is_failure_delay (snapshot_date df) r = true ↔ spec_is_failure_delay df r) ∧
    (is_canceled_delay (snapshot_date df) r = true ↔ spec_is_canceled_delay df r) := by
  refine ⟨?_, ?_, ?_⟩
  · unfold is_success_delay spec_is_success_delay is_success tGt
    rw [Bool.and_eq_true, tLt_eq_true_iff]
    constructor
    · rintro ⟨hs, e, d, he, hd, hlt⟩
      exact ⟨by simpa using hs, d, e, hd, he, hlt⟩
    · rintro ⟨hs, d, e, hd, he, hlt⟩
      exact ⟨by simpa using hs, e, d, he, hd, hlt⟩
  · unfold is_failure_delay spec_is_failure_delay is_success is_canceled
    rw [Bool.and_eq_true, Bool.and_eq_true, tLt_eq_true_iff]
    constructor
    · rintro ⟨⟨h1, h2⟩, e, sd, he, hsd, hlt⟩
      refine ⟨by simpa using h1, by simpa using h2, e, sd, he, ?_, hlt⟩
      exact (snapshot_date_eq_some_iff df sd).mp hsd
    · rintro ⟨h1, h2, e, sd, he, hsd, hlt⟩
      refine ⟨⟨by simpa using h1, by simpa using h2⟩, e, sd, he, ?_, hlt⟩
      exact (snapshot_date_eq_some_iff df sd).mpr hsd
  · unfold is_canceled_delay spec_is_canceled_delay is_canceled
    rw [Bool.and_eq_true, tLt_eq_true_iff]
    constructor
    · rintro ⟨h1, e, sd, he, hsd, hlt⟩
      exact ⟨by simpa using h1, e, sd, he, (snapshot_date_eq_some_iff df sd).mp hsd, hlt⟩
    · rintro ⟨h1, e, sd, he, hsd, hlt⟩
      exact ⟨by simpa using h1, e, sd, he, (snapshot_date_eq_some_iff df sd).mpr hsd, hlt⟩

/- ## Regional aggregation (lines 79-98) -/

/-- The group keys of `df.groupby('customer_state')`: the distinct non-null
states, in order of first appearance. -/
def states (df : List Row) : List String :=
  (df.filterMap fun r => r.customer_state).dedup

/-- The rows of one `customer_state` group. -/
def groupRows (df : List Row) (s : String) : List Row :=
  df.filter fun r => r.customer_state == some s

/-- One row of the `region_stats` frame. The two ratio fields model the
columns `'Total Delay Ratio (%)'` and `'Revenue Loss Ratio (%)'`. -/
structure RegionStat where
  customer_state : String
  total_orders : Nat
  total_order_value : ℚ
  success_cnt : Nat
  canceled_cnt : Nat
  canceled_value : ℚ
  success_delay_cnt : Nat
  failure_delay_cnt : Nat
  canceled_delay_cnt : Nat
  canceled_delay_value : ℚ
  delay_1_3 : Nat
  delay_4_7 : Nat
  delay_7_plus : Nat
  total_delay_ratio : ℚ
  revenue_loss_ratio : ℚ
deriving DecidableEq, Repr

/-- `.round(2)`: round to the nearest hundredth (tie behaviour is not
exercised by any claim). -/
def round2 (q : ℚ) : ℚ := ((round (q * 100) : ℤ) : ℚ) / 100

/-- Lines 79-94: the aggregation of one state group (`count`, `sum`, the
boolean sums, the masked price sums and the three intensity-bucket counts).
The two ratio columns are filled in by `addRatioColumns` afterwards. -/
def aggGroup (snap : Option Int) (s : String) (g : List Row) : RegionStat :=
  { customer_state := s
    total_orders := g.length
    total_order_value := (g.map fun r => r.price).sum
    success_cnt := g.countP fun r => is_success r
    canceled_cnt := g.countP fun r => is_canceled r
    canceled_value := ((g.filter fun r => is_canceled r).map fun r => r.price).sum
    success_delay_cnt := g.countP fun r => is_success_delay r
    failure_delay_cnt := g.countP fun r => is_failure_delay snap r
    canceled_delay_cnt := g.countP fun r => is_canceled_delay snap r
    canceled_delay_value :=
      ((g.filter fun r => is_canceled_delay snap r).map fun r => r.price).sum
    delay_1_3 := g.countP fun r => delay_intensity snap r == some DelayCat.d1_3
    delay_4_7 := g.countP fun r => delay_intensity snap r == some DelayCat.d4_7
    delay_7_plus := g.countP fun r => delay_intensity snap r == some DelayCat.d7_plus
    total_delay_ratio := 0
    revenue_loss_ratio := 0 }

/-- Lines 97-98: the two ratio columns, computed from the already-aggregated
columns of `region_stats`. -/
def addRatioColumns (st : RegionStat) : RegionStat :=
  { st with
    total_delay_ratio :=
      round2 (((st.success_delay_cnt + st.failure_delay_cnt +
        st.canceled_delay_cnt : ℕ) : ℚ) / (st.total_orders : ℚ) * 100)
    revenue_loss_ratio :=
      round2 (st.canceled_delay_value / st.total_order_value * 100) }

/-- Lines 79-98: the `region_stats` frame, one row per state group. -/
def region_stats (input : DataInput) : List RegionStat :=
  let df := buildDF input
  let snap := snapshot_date df
  ((states df).map fun s => aggGroup snap s (groupRows df s)).map addRatioColumns

/- ## Specification-side definitions for claim C2 -/

/-- Spec wording: the number of order records of the merged data with the
given state. -/
def spec_total_orders (df : List Row) (s : String) : Nat :=
  df.countP fun r => r.customer_state == some s

/-- Spec wording: the number of order records with the given state whose
status is `'delivered'`. -/
def spec_success_cnt (df : List Row) (s : String) : Nat :=
  df.countP fun r => r.customer_state == some s && r.order_status == "delivered"

/-- Spec wording: the number of order records with the given state whose
status is `'canceled'`. -/
def spec_canceled_cnt (df : List Row) (s : String) : Nat :=
  df.countP fun r => r.customer_state == some s && r.order_status == "canceled"

/-- Spec wording: the item-price total of one order, `0` for an order that
has no items. -/
def spec_order_total (items : List ItemRec) (oid : String) : ℚ :=
  let its := items.filter fun it => it.order_id == oid
  if its.isEmpty then 0 else (its.map fun it => it.price).sum

/-- Spec wording: the sum of the per-order item-price totals over the order
records with the given state. -/
def spec_total_order_value (input : DataInput) (s : String) : ℚ :=
  (((buildDF input).filter fun r => r.customer_state == some s).map
    fun r => spec_order_total input.order_items r.order_id).sum

/-- Spec wording: the sum of the per-order item-price totals over the
canceled order records with the given state. -/
def spec_canceled_value (input : DataInput) (s : String) : ℚ :=
  (((buildDF input).filter fun r =>
      r.customer_state == some s && r.order_status == "canceled").map
    fun r => spec_order_total input.order_items r.order_id).sum

/- ## Helper lemmas about the merged frame -/

lemma buildDF_price (input : DataInput) (r : Row) (hr : r ∈ buildDF input) :
    r.price = order_value input.order_items r.order_id := by
  unfold buildDF at hr
  obtain ⟨oc, -, rfl⟩ := List.mem_map.mp hr
  rfl

lemma spec_order_total_eq (items : List ItemRec) (oid : String) :
    spec_order_total items oid = order_value items oid := by
  unfold spec_order_total order_value
  by_cases h : (items.filter fun it => it.order_id == oid).isEmpty
  · rw [List.isEmpty_iff] at h
    simp [h]
  · simp [h]

/-- Claim C2: for every state of the merged data, the `region_stats` row of
that state has the claimed counts (`total_orders`, `success_cnt`,
`canceled_cnt`) and the claimed price sums (`total_order_value`,
`canceled_value`), all computed over the merged order records of that
state, with a zero per-order total for an order without items. -/
theorem region_stats_aggregates_spec (input : DataInput) (s : String)
    (h : s ∈ states (buildDF input)) :
    ∃ st ∈ region_stats input,
      st.customer_state = s ∧
      st.total_orders = spec_total_orders (buildDF input) s ∧
      st.success_cnt = spec_success_cnt (buildDF input) s ∧
      st.canceled_cnt = spec_canceled_cnt (buildDF input) s ∧
      st.total_order_value = spec_total_order_value input s ∧
      st.canceled_value = spec_canceled_value input s := by
  refine ⟨addRatioColumns (aggGroup (snapshot_date (buildDF input)) s
      (groupRows (buildDF input) s)), ?_, rfl, ?_, ?_, ?_, ?_, ?_⟩
  · unfold region_stats
    exact List.mem_map_of_mem _ (List.mem_map_of_mem _ h)
  · show (groupRows (buildDF input) s).length = _
    unfold groupRows spec_total_orders
    rw [List.countP_eq_length_filter]
  · show (groupRows (buildDF input) s).countP (fun r => is_success r) = _
    unfold groupRows spec_success_cnt
    rw [List.countP_filter]
    refine List.countP_congr fun r _ => ?_
    simp [is_success, and_comm]
  · show (groupRows (buildDF input) s).countP (fun r => is_canceled r) = _
    unfold groupRows spec_canceled_cnt
    rw [List.countP_filter]
    refine List.countP_congr fun r _ => ?_
    simp [is_canceled, and_comm]
  · show ((groupRows (buildDF input) s).map fun r => r.price).sum = _
    unfold groupRows spec_total_order_value
    refine congrArg List.sum (List.map_congr_left fun r hr => ?_)
    rw [spec_order_total_eq]
    exact buildDF_price input r (List.mem_filter.mp hr).1
  · show (((groupRows (buildDF input) s).filter fun r => is_canceled r).map
        fun r => r.price).sum = _
    unfold groupRows spec_canceled_value
    rw [List.filter_filter]
    have hfe : ((buildDF input).filter fun a =>
          is_canceled a && (a.customer_state == some s)) =
        (buildDF input).filter fun r =>
          (r.customer_state == some s) && (r.order_status == "canceled") := by
      refine List.filter_congr fun r _ => ?_
      exact Bool.and_comm _ _
    rw [hfe]
    refine congrArg List.sum (List.map_congr_left fun r hr => ?_)
    rw [spec_order_total_eq]
    exact buildDF_price input r (List.mem_filter.mp hr).1

/-- Claim C3: in every `region_stats` row, `'Total Delay Ratio (%)'` is the
sum of the three delay counts over `total_orders`, times 100, rounded to
two decimals. -/
theorem total_delay_ratio_eq (input : DataInput) (st : RegionStat)
    (h : st ∈ region_stats input) :
    st.total_delay_ratio =
      round2 (((st.success_delay_cnt + st.failure_delay_cnt +
        st.canceled_delay_cnt : ℕ) : ℚ) / (st.total_orders : ℚ) * 100) := by
  unfold region_stats at h
  obtain ⟨base, -, rfl⟩ := List.mem_map.mp h
  rfl

/-- Claim C4: in every `region_stats` row, `'Revenue Loss Ratio (%)'` is
`canceled_delay_value` over `total_order_value`, times 100, rounded to two
decimals. The equation carries no side condition on `total_order_value`:
the script computes the quotient unguarded even when the group's
`total_order_value` is zero (in this rational model that quotient is the
total division-by-zero value). -/
theorem revenue_loss_ratio_eq (input : DataInput) (st : RegionStat)
    (h : st ∈ region_stats input) :
    st.revenue_loss_ratio =
      round2 (st.canceled_delay_value / st.total_order_value * 100) := by
  unfold region_stats at h
  obtain ⟨base, -, rfl⟩ := List.mem_map.mp h
  rfl

/- ## Concrete data for witnesses -/

def wOrder : OrderRec :=
  { order_id := "o1", customer_id := "c1", order_status := "delivered"
    order_purchase_timestamp := some 0
    order_delivered_customer_date := some 200000
    order_estimated_delivery_date := some 100000 }

def wCustomer : CustomerRec := { customer_id := "c1", customer_state := "SP" }

def wItem : ItemRec := { order_id := "o1", price := 50 }

def wInput : DataInput :=
  { orders := [wOrder], customers := [wCustomer], order_items := [wItem] }

def wStat : RegionStat :=
  addRatioColumns (aggGroup (snapshot_date (buildDF wInput)) "SP"
    (groupRows (buildDF wInput) "SP"))

lemma wSP_mem : "SP" ∈ states (buildDF wInput) := by decide

lemma wStat_mem : wStat ∈ region_stats wInput := by
  unfold region_stats wStat
  exact List.mem_map_of_mem _ (List.mem_map_of_mem _ wSP_mem)

theorem region_stats_aggregates_spec_witness :
    ∃ st ∈ region_stats wInput,
      st.customer_state = "SP" ∧
      st.total_orders = spec_total_orders (buildDF wInput) "SP" ∧
      st.success_cnt = spec_success_cnt (buildDF wInput) "SP" ∧
      st.canceled_cnt = spec_canceled_cnt (buildDF wInput) "SP" ∧
      st.total_order_value = spec_total_order_value wInput "SP" ∧
      st.canceled_value = spec_canceled_value wInput "SP" :=
  region_stats_aggregates_spec wInput "SP" wSP_mem

theorem total_delay_ratio_eq_witness :
    wStat.total_delay_ratio =
      round2 (((wStat.success_delay_cnt + wStat.failure_delay_cnt +
        wStat.canceled_delay_cnt : ℕ) : ℚ) / (wStat.total_orders : ℚ) * 100) :=
  total_delay_ratio_eq wInput wStat wStat_mem

theorem revenue_loss_ratio_eq_witness :
    wStat.revenue_loss_ratio =
      round2 (wStat.canceled_delay_value / wStat.total_order_value * 100) :=
  revenue_loss_ratio_eq wInput wStat wStat_mem

/- ## Claim C8: the three delay flags are mutually exclusive -/

lemma flags_exclusive (snap : Option Int) (r : Row) :
    (is_success_delay r && is_failure_delay snap r) = false ∧
    (is_success_delay r && is_canceled_delay snap r) = false ∧
    (is_failure_delay snap r && is_canceled_delay snap r) = false := by
  unfold is_success_delay is_failure_delay is_canceled_delay is_success is_canceled
  cases h1 : r.order_status == "delivered" <;>
    cases h2 : r.order_status == "canceled" <;> simp
  rw [beq_iff_eq] at h1 h2
  exact absurd (h1 ▸ h2) (by decide)

lemma countP_three_le {α : Type} (l : List α) (p1 p2 p3 q1 q2 : α → Bool)
    (h : ∀ x ∈ l,
      ((if p1 x then 1 else 0) + (if p2 x then 1 else 0) +
        (if p3 x then 1 else 0) : ℕ) ≤
      (if q1 x then 1 else 0) + (if q2 x then 1 else 0)) :
    l.countP p1 + l.countP p2 + l.countP p3 ≤ l.countP q1 + l.countP q2 := by
  induction l with
  | nil => simp
  | cons a l ih =>
    simp only [List.countP_cons]
    have ha := h a (List.mem_cons_self _ _)
    have ih' := ih fun x hx => h x (List.mem_cons_of_mem _ hx)
    omega

lemma ratio_le_100 (n t : ℕ) (h : n ≤ t) : ((n : ℚ) / (t : ℚ) * 100) ≤ 100 := by
  rcases Nat.eq_zero_or_pos t with rfl | ht
  · interval_cases n
    simp
  · have ht' : (0 : ℚ) < t := by exact_mod_cast ht
    rw [div_mul_eq_mul_div, div_le_iff₀ ht']
    have hq : (n : ℚ) ≤ (t : ℚ) := by exact_mod_cast h
    nlinarith

lemma round2_le_100 (x : ℚ) (hx : x ≤ 100) : round2 x ≤ 100 := by
  unfold round2
  rw [div_le_iff₀ (by norm_num : (0 : ℚ) < 100)]
  have h1 : round (x * 100) ≤ round ((10000 : ℚ)) := by
    rw [round_eq, round_eq]
    exact Int.floor_mono (by linarith)
  have h2 : round ((10000 : ℚ)) = 10000 := by
    norm_num
  have h3 : round (x * 100) ≤ (10000 : ℤ) := h2 ▸ h1
  calc ((round (x * 100) : ℤ) : ℚ) ≤ ((10000 : ℤ) : ℚ) := by exact_mod_cast h3
    _ = 100 * 100 := by norm_num

/-- Claim C8: for every order record at most one of the three delay flags
holds (their status conditions are mutually exclusive), so in every
`region_stats` row the numerator of `'Total Delay Ratio (%)'` counts each
order at most once and the ratio never exceeds 100. -/
theorem delay_flags_exclusive_ratio_bounded (input : DataInput)
    (st : RegionStat) (h : st ∈ region_stats input) :
    (∀ snap r, (is_success_delay r && is_failure_delay snap r) = false ∧
      (is_success_delay r && is_canceled_delay snap r) = false ∧
      (is_failure_delay snap r && is_canceled_delay snap r) = false) ∧
    st.success_delay_cnt + st.failure_delay_cnt + st.canceled_delay_cnt ≤
      st.total_orders ∧
    st.total_delay_ratio ≤ 100 := by
  refine ⟨fun snap r => flags_exclusive snap r, ?_⟩
  unfold region_stats at h
  obtain ⟨base, hbase, rfl⟩ := List.mem_map.mp h
  obtain ⟨s, -, rfl⟩ := List.mem_map.mp hbase
  have hcnt : (groupRows (buildDF input) s).countP
        (fun r => is_success_delay r) +
      (groupRows (buildDF input) s).countP
        (fun r => is_failure_delay (snapshot_date (buildDF input)) r) +
      (groupRows (buildDF input) s).countP
        (fun r => is_canceled_delay (snapshot_date (buildDF input)) r) ≤
      (groupRows (buildDF input) s).length := by
    have hb := countP_three_le (groupRows (buildDF input) s)
      (fun r => is_success_delay r)
      (fun r => is_failure_delay (snapshot_date (buildDF input)) r)
      (fun r => is_canceled_delay (snapshot_date (buildDF input)) r)
      (fun _ => true) (fun _ => false) ?_
    · simpa using hb
    · intro x hx
      obtain ⟨e1, e2, e3⟩ := flags_exclusive (snapshot_date (buildDF input)) x
      cases hA : is_success_delay x <;>
        cases hB : is_failure_delay (snapshot_date (buildDF input)) x <;>
        cases hC : is_canceled_delay (snapshot_date (buildDF input)) x <;>
        simp_all
  refine ⟨hcnt, ?_⟩
  show round2 _ ≤ 100
  exact round2_le_100 _ (by
    apply ratio_le_100
    simpa using hcnt)

theorem delay_flags_exclusive_ratio_bounded_witness :
    (∀ snap r, (is_success_delay r && is_failure_delay snap r) = false ∧
      (is_success_delay r && is_canceled_delay snap r) = false ∧
      (is_failure_delay snap r && is_canceled_delay snap r) = false) ∧
    wStat.success_delay_cnt + wStat.failure_delay_cnt +
      wStat.canceled_delay_cnt ≤ wStat.total_orders ∧
    wStat.total_delay_ratio ≤ 100 :=
  delay_flags_exclusive_ratio_bounded wInput wStat wStat_mem

/- ## Claim C9: the delay-intensity buckets undercount the flagged orders -/

lemma delay_intensity_some_flag (snap : Option Int) (r : Row) (c : DelayCat)
    (h : delay_intensity snap r = some c) :
    (is_canceled_delay snap r || is_failure_delay snap r) = true := by
  unfold delay_intensity at h
  by_cases hb : (is_canceled_delay snap r || is_failure_delay snap r) = true
  · exact hb
  · rw [if_neg hb] at h
    cases h

/-- Claim C9: a delay-intensity category is assigned only to orders flagged
`is_failure_delay` or `is_canceled_delay`; an order whose whole-day delay
duration truncates to zero or less gets no category; hence in every
`region_stats` row the three bucket counts sum to at most
`failure_delay_cnt + canceled_delay_cnt`. -/
theorem delay_buckets_le_flagged (input : DataInput) (st : RegionStat)
    (h : st ∈ region_stats input) :
    (∀ snap r, delay_intensity snap r ≠ none →
      (is_failure_delay snap r || is_canceled_delay snap r) = true) ∧
    (∀ snap r d, delay_duration snap r = some d → d ≤ 0 →
      delay_intensity snap r = none) ∧
    st.delay_1_3 + st.delay_4_7 + st.delay_7_plus ≤
      st.failure_delay_cnt + st.canceled_delay_cnt := by
  refine ⟨?_, ?_, ?_⟩
  · intro snap r hne
    cases hi : delay_intensity snap r with
    | none => exact absurd hi hne
    | some c =>
      have := delay_intensity_some_flag snap r c hi
      rw [Bool.or_comm]
      exact this
  · intro snap r d hdur hd
    unfold delay_intensity
    by_cases hb : (is_canceled_delay snap r || is_failure_delay snap r) = true
    · rw [if_pos hb, hdur]
      simp [categorize_delay, hd]
    · rw [if_neg hb]
  · unfold region_stats at h
    obtain ⟨base, hbase, rfl⟩ := List.mem_map.mp h
    obtain ⟨s, -, rfl⟩ := List.mem_map.mp hbase
    show (groupRows (buildDF input) s).countP _ +
        (groupRows (buildDF input) s).countP _ +
        (groupRows (buildDF input) s).countP _ ≤
        (groupRows (buildDF input) s).countP _ +
        (groupRows (buildDF input) s).countP _
    apply countP_three_le
    intro x hx
    cases hi : delay_intensity (snapshot_date (buildDF input)) x with
    | none => simp [hi]
    | some c =>
      have hflag := delay_intensity_some_flag _ x c hi
      rcases (Bool.or_eq_true _ _).mp hflag with hc | hf
      · cases c <;> simp [hi, hc]
      · cases c <;> simp [hi, hf]

theorem delay_buckets_le_flagged_witness :
    (∀ snap r, delay_intensity snap r ≠ none →
      (is_failure_delay snap r || is_canceled_delay snap r) = true) ∧
    (∀ snap r d, delay_duration snap r = some d → d ≤ 0 →
      delay_intensity snap r = none) ∧
    wStat.delay_1_3 + wStat.delay_4_7 + wStat.delay_7_plus ≤
      wStat.failure_delay_cnt + wStat.canceled_delay_cnt :=
  delay_buckets_le_flagged wInput wStat wStat_mem

/- ## Claim C5: parquet loading with CSV fallback (lines 26-33) -/

/-- The body of the `try` block (and likewise of the `except` block): read
the three datasets in order, stopping at the first read that raises. -/
def readAll3 (r1 : Except String (List OrderRec))
    (r2 : Except String (List CustomerRec))
    (r3 : Except String (List ItemRec)) : Except String DataInput := do
  let o ← r1
  let c ← r2
  let i ← r3
  pure { orders := o, customers := c, order_items := i }

/-- Lines 26-33: attempt the three parquet reads; on any exception run the
three CSV reads instead. The CSV reads are not themselves guarded. -/
def load_datasets (p1 : Except String (List OrderRec))
    (p2 : Except String (List CustomerRec))
    (p3 : Except String (List ItemRec))
    (c1 : Except String (List OrderRec))
    (c2 : Except String (List CustomerRec))
    (c3 : Except String (List ItemRec)) : Except String DataInput :=
  match readAll3 p1 p2 p3 with
  | Except.ok v => Except.ok v
  | Except.error _ => readAll3 c1 c2 c3

/-- Claim C5 counterexample: when the parquet reads and the CSV fallback
both raise (e.g. none of the six files exists), the loading error does
propagate out of `load_and_process_data`, contrary to the claim that no
loading error survives the fallback. -/
theorem load_datasets_error_propagates :
    load_datasets (Except.error "file not found") (Except.error "file not found")
      (Except.error "file not found") (Except.error "file not found")
      (Except.error "file not found") (Except.error "file not found") =
    Except.error "file not found" := rfl

/-- Claim C5 (amended): if any parquet read raises, all three datasets are
re-read from CSV — so a parquet error never propagates — and if every
parquet read succeeds the parquet data is used; an error raised inside the
CSV fallback itself, however, is unguarded and propagates. -/
theorem load_datasets_fallback (p1 : Except String (List OrderRec))
    (p2 : Except String (List CustomerRec))
    (p3 : Except String (List ItemRec))
    (c1 : Except String (List OrderRec))
    (c2 : Except String (List CustomerRec))
    (c3 : Except String (List ItemRec)) :
    (∀ o c i, p1 = Except.ok o → p2 = Except.ok c → p3 = Except.ok i →
      load_datasets p1 p2 p3 c1 c2 c3 =
        Except.ok { orders := o, customers := c, order_items := i }) ∧
    ((p1.isOk = false ∨ p2.isOk = false ∨ p3.isOk = false) →
      load_datasets p1 p2 p3 c1 c2 c3 = readAll3 c1 c2 c3) := by
  constructor
  · rintro o c i rfl rfl rfl
    rfl
  · intro h
    rcases p1 with e1 | o <;> rcases p2 with e2 | c <;> rcases p3 with e3 | i <;>
      first
        | rfl
        | simp [Except.isOk, Except.toBool] at h

theorem load_datasets_fallback_witness :
    (load_datasets (Except.ok [wOrder]) (Except.ok [wCustomer])
        (Except.ok [wItem]) (Except.error "x") (Except.error "x")
        (Except.error "x") = Except.ok wInput) ∧
    (load_datasets (Except.error "missing parquet") (Except.ok [wCustomer])
        (Except.ok [wItem]) (Except.ok [wOrder]) (Except.ok [wCustomer])
        (Except.ok [wItem]) =
      readAll3 (Except.ok [wOrder]) (Except.ok [wCustomer]) (Except.ok [wItem])) :=
  ⟨(load_datasets_fallback _ _ _ _ _ _).1 [wOrder] [wCustomer] [wItem] rfl rfl rfl,
   (load_datasets_fallback _ _ _ _ _ _).2 (Or.inl rfl)⟩

/- ## Claim C6: the GeoJSON fetch never propagates an exception -/

/-- Lines 13-21: `get_brazil_geojson`. The HTTP fetch and the JSON decoding
of the response both sit inside the `try`; the function's only results are
the decoded value or `None`, modelled by the total `Option` codomain. -/
def get_brazil_geojson {Resp Geo : Type} (response : Except String Resp)
    (json_of : Resp → Except String Geo) : Option Geo :=
  match response with
  | Except.error _ => none
  | Except.ok r =>
    match json_of r with
    | Except.ok j => some j
    | Except.error _ => none

/-- Claim C6: if the HTTP fetch raises, or the fetch succeeds and the JSON
decoding raises, `get_brazil_geojson` returns `None`; when both succeed it
returns the decoded value. It is a total function into `Option`, so no
exception propagates. -/
theorem get_brazil_geojson_total {Resp Geo : Type}
    (response : Except String Resp) (json_of : Resp → Except String Geo) :
    (∀ e, response = Except.error e →
      get_brazil_geojson response json_of = none) ∧
    (∀ r e, response = Except.ok r → json_of r = Except.error e →
      get_brazil_geojson response json_of = none) ∧
    (∀ r j, response = Except.ok r → json_of r = Except.ok j →
      get_brazil_geojson response json_of = some j) := by
  refine ⟨?_, ?_, ?_⟩
  · rintro e rfl
    rfl
  · rintro r e rfl hj
    simp [get_brazil_geojson, hj]
  · rintro r j rfl hj
    simp [get_brazil_geojson, hj]

theorem get_brazil_geojson_total_witness :
    (get_brazil_geojson (Except.error "timeout" : Except String Nat)
      (fun n => Except.ok (n + 1)) = none) ∧
    (get_brazil_geojson (Except.ok 5 : Except String Nat)
      (fun _ => (Except.error "bad json" : Except String Nat)) = none) ∧
    (get_brazil_geojson (Except.ok 5 : Except String Nat)
      (fun n => Except.ok (n + 1)) = some 6) :=
  ⟨(get_brazil_geojson_total _ _).1 "timeout" rfl,
   (get_brazil_geojson_total _ (fun _ => (Except.error "bad json" : Except String Nat))).2.1 5 "bad json" rfl rfl,
   (get_brazil_geojson_total _ _).2.2 5 6 rfl rfl⟩

/- ## Claim C7: memoizing the load step is equivalent to recomputing -/

/-- `@st.cache_data` on `load_and_process_data` (lines 23-24): a call with a
populated cache returns the cached table; a first call computes the table
and stores it. -/
def cached_call (input : DataInput) :
    Option (List RegionStat) → List RegionStat × Option (List RegionStat)
  | some cache => (cache, some cache)
  | none => (region_stats input, some (region_stats input))

/-- The tables observed over `n` successive calls, threading the cache. -/
def run_memo (input : DataInput) :
    Nat → Option (List RegionStat) → List (List RegionStat)
  | 0, _ => []
  | n + 1, cache =>
    ((cached_call input cache).1) :: run_memo input n (cached_call input cache).2

lemma run_memo_cached (input : DataInput) (n : Nat) :
    run_memo input n (some (region_stats input)) =
      List.replicate n (region_stats input) := by
  induction n with
  | zero => rfl
  | succ n ih =>
    unfold run_memo cached_call
    rw [List.replicate_succ]
    exact congrArg _ ih

/-- Claim C7: `load_and_process_data` is a function of the loaded data, so
two runs over the same static dataset give equal `region_stats` tables, and
every one of `n` memoized calls starting from a cold cache observes exactly
the table that an unmemoized recomputation would produce. -/
theorem run_memo_eq_recompute (input : DataInput) (n : Nat) :
    run_memo input n none = List.replicate n (region_stats input) := by
  cases n with
  | zero => rfl
  | succ n =>
    unfold run_memo cached_call
    rw [List.replicate_succ]
    exact congrArg _ (run_memo_cached input n)

/- ## Claim C10: the sidebar state filter (lines 123-126) -/

/-- Lines 123-126: `filtered_data` is the whole table when no state is
selected, and the `isin`-filtered table otherwise. -/
def filtered_data (data : List RegionStat) (selected_states : List String) :
    List RegionStat :=
  if selected_states.isEmpty then data
  else data.filter fun r => selected_states.contains r.customer_state

/-- Claim C10: with an empty multiselect `filtered_data` is the full
`region_stats` table; with a non-empty selection it holds exactly the rows
whose `customer_state` is among the selected states. -/
theorem filtered_data_spec (data : List RegionStat)
    (selected_states : List String) :
    (filtered_data data [] = data) ∧
    (selected_states ≠ [] →
      ∀ r, r ∈ filtered_data data selected_states ↔
        r ∈ data ∧ r.customer_state ∈ selected_states) := by
  constructor
  · rfl
  · intro hne r
    unfold filtered_data
    rw [if_neg (by simpa [List.isEmpty_iff] using hne)]
    simp [List.mem_filter]

theorem filtered_data_spec_witness :
    (filtered_data [wStat] [] = [wStat]) ∧
    (∀ r, r ∈ filtered_data [wStat] ["SP", "RJ"] ↔
      r ∈ [wStat] ∧ r.customer_state ∈ ["SP", "RJ"]) :=
  ⟨(filtered_data_spec [wStat] ["SP", "RJ"]).1,
   (filtered_data_spec [wStat] ["SP", "RJ"]).2 (by decide)⟩

/- ## Closed instances of the hypothesis-free theorems -/

def wRow : Row :=
  { order_id := "o1", order_status := "delivered"
    order_purchase_timestamp := some 0
    order_delivered_customer_date := some 200000
    order_estimated_delivery_date := some 100000
    customer_state := some "SP", price := 50 }

theorem delay_flags_match_spec_witness :
    (is_success_delay wRow = true ↔ spec_is_success_delay wRow) ∧
    (is_failure_delay (snapshot_date [wRow]) wRow = true ↔
      spec_is_failure_delay [wRow] wRow) ∧
    (is_canceled_delay (snapshot_date [wRow]) wRow = true ↔
      spec_is_canceled_delay [wRow] wRow) :=
  delay_flags_match_spec [wRow] wRow

theorem run_memo_eq_recompute_witness :
    run_memo wInput 2 none = List.replicate 2 (region_stats wInput) :=
  run_memo_eq_recompute wInput 2
